import Mathlib

/-!
Verification of the Philips remote quirk module
(`zhaquirks/philips/__init__.py`): the `ButtonPressQueue` debouncing
state machine and the `PhilipsRemoteCluster.handle_cluster_request`
dispatch logic, shallowly embedded as pure Lean functions over an
explicit discrete-event simulation.

Timing model: the Python code runs on a single-threaded cooperative
event loop.  A scheduled `_job` sleeps `_ms_threshold` milliseconds and
then invokes the current callback with the current click counter.  We
model wall-clock milliseconds as `Nat`, keep the full history of
scheduled timer tasks (so "at most one pending timer" is a provable
property, not a modelling assumption), and fire every still-pending
timer whose deadline lies strictly before the next notification's
timestamp before that notification is handled, exactly as the event
loop would.  A timer whose deadline equals the notification timestamp
has not yet run, matching the source's `now - last > threshold` branch
split.
-/

set_option maxHeartbeats 1000000

namespace PhilipsQuirk

/-- A decoded field value: either a label found in a lookup table, or the
raw numeric code passed through unchanged (Python
`dict.get(code, code)`). -/
inductive Val where
  | label : String → Val
  | code : Nat → Val
deriving DecidableEq

/-- Python f-string rendering of a decoded value: a string renders as
itself, a raw numeric code as its decimal notation. -/
def fmtVal : Val → String
  | .label s => s
  | .code n => toString n

/-- The payload handed to `listener_event(ZHA_SEND_EVENT, action, event_args)`:
the action string plus the `event_args` mapping with keys BUTTON,
PRESS_TYPE, COMMAND_ID and ARGS. -/
structure ZhaEvent where
  action : String
  button : Val
  press_type : Val
  command_id : Nat
  args : List Nat
deriving DecidableEq

/-- One scheduled `_job` task: the wall-clock millisecond at which its
`asyncio.sleep` elapses, and whether it is still pending (neither fired
nor cancelled). -/
structure TimerRec where
  deadline : Nat
  pending : Bool
deriving DecidableEq

/-- State of `ButtonPressQueue`.  `task` is the `self._task` slot,
holding the index of the most recently scheduled job in the `timers`
history (or `none` before the first press); `timers` records every job
ever created, so that pending-timer counting is meaningful. -/
structure ButtonPressQueue where
  ms_threshold : Nat
  ms_last_click : Nat
  click_counter : Nat
  button : Option Val
  callback : Nat → List ZhaEvent
  task : Option Nat
  timers : List TimerRec

/-- `ButtonPressQueue.__init__`. -/
def initQueue : ButtonPressQueue :=
  { ms_threshold := 300
    ms_last_click := 0
    click_counter := 1
    button := none
    callback := fun _ => []
    task := none
    timers := [] }

/-- Cancel the timer stored at index `i` of the task history
(`task.cancel()`); cancelling an already fired or cancelled task is a
no-op, as in asyncio. -/
def cancelAt : List TimerRec → Nat → List TimerRec
  | [], _ => []
  | tm :: rest, 0 => { tm with pending := false } :: rest
  | tm :: rest, i + 1 => tm :: cancelAt rest i

/-- Cancel the task referenced by `self._task`, if any (`if self._task:
self._task.cancel()`).  The unconditional `self._task.cancel()` in the
third branch of `press` is reached only when `button` matches a
previous press, in which case a task was already assigned, so modelling
the `none` case as a no-op loses nothing. -/
def ButtonPressQueue.cancelTask (q : ButtonPressQueue) : ButtonPressQueue :=
  match q.task with
  | some i => { q with timers := cancelAt q.timers i }
  | none => q

/-- `ButtonPressQueue._reset`. -/
def ButtonPressQueue.reset (q : ButtonPressQueue) (button : Val) : ButtonPressQueue :=
  { q.cancelTask with click_counter := 1, button := some button }

/-- `ButtonPressQueue.press`: store the callback, branch on
button identity and the inter-press gap, stamp the click time, and
schedule a fresh `_job` with deadline `now_ms + ms_threshold`. -/
def ButtonPressQueue.press (q : ButtonPressQueue) (callback : Nat → List ZhaEvent)
    (button : Val) (now_ms : Nat) : ButtonPressQueue :=
  let q1 : ButtonPressQueue := { q with callback := callback }
  let q2 : ButtonPressQueue :=
    if q1.button ≠ some button then
      q1.reset button
    else if q1.ms_threshold < now_ms - q1.ms_last_click then
      { q1 with click_counter := 1 }
    else
      let q3 := q1.cancelTask
      { q3 with click_counter := q3.click_counter + 1 }
  let q4 : ButtonPressQueue := { q2 with ms_last_click := now_ms }
  { q4 with
      task := some q4.timers.length
      timers := q4.timers ++ [{ deadline := now_ms + q4.ms_threshold, pending := true }] }

/-- A raw incoming notification frame: arrival time in milliseconds,
the header's command id, and the positional argument list. -/
structure Notif where
  time : Nat
  command_id : Nat
  args : List Nat
deriving DecidableEq

/-- The `BUTTONS` table `{1: "on", 2: "up", 3: "down", 4: "off"}`. -/
def BUTTONS (code : Nat) : Option String :=
  if code = 1 then some "on"
  else if code = 2 then some "up"
  else if code = 3 then some "down"
  else if code = 4 then some "off"
  else none

/-- The `PRESS_TYPES` table `{0: "press", 1: "hold", 2: "short_release",
3: "long_release"}`. -/
def PRESS_TYPES (code : Nat) : Option String :=
  if code = 0 then some "press"
  else if code = 1 then some "hold"
  else if code = 2 then some "short_release"
  else if code = 3 then some "long_release"
  else none

/-- Python `table.get(code, code)`. -/
def decodeVal (table : Nat → Option String) (code : Nat) : Val :=
  match table code with
  | some s => .label s
  | none => .code code

/-- The decoding prelude of `handle_cluster_request`:
`button = BUTTONS.get(args[0], args[0])` and
`press_type = PRESS_TYPES.get(args[2], args[2])`.  `none` models the
`IndexError` raised when the argument list is too short. -/
def decodeBP (args : List Nat) : Option (Val × Val) :=
  match args.get? 0, args.get? 2 with
  | some a0, some a2 => some (decodeVal BUTTONS a0, decodeVal PRESS_TYPES a2)
  | _, _ => none

/-- The closure `send_press_event` built inside `handle_cluster_request`:
given the final click count, translate it to a press-type label,
overwrite the PRESS_TYPE field of the captured `event_args`, and emit
one event (or none when no label matches, which needs
`click_count = 0`). -/
def send_press_event (button : Val) (command_id : Nat) (args : List Nat)
    (click_count : Nat) : List ZhaEvent :=
  let press_type : Option String :=
    if click_count = 1 then some "press"
    else if click_count = 2 then some "double_press"
    else if click_count = 3 then some "triple_press"
    else if click_count = 4 then some "quadruple_press"
    else if 4 < click_count then some "quintuple_press"
    else none
  match press_type with
  | some s =>
      [{ action := fmtVal button ++ "_" ++ s
         button := button
         press_type := .label s
         command_id := command_id
         args := args }]
  | none => []

/-- Simulation state: the (class-level singleton) debouncer plus the
chronological list of events emitted so far, each tagged with its
emission time in milliseconds. -/
structure SimState where
  q : ButtonPressQueue
  out : List (Nat × ZhaEvent)

/-- Initial simulation state: fresh queue, nothing emitted. -/
def initSim : SimState := { q := initQueue, out := [] }

/-- Events produced when the event loop runs every pending `_job` whose
deadline lies strictly before time `t`: each such job invokes the
then-current callback with the then-current click counter, at its
deadline. -/
def firedEmissions (cb : Nat → List ZhaEvent) (cnt t : Nat) : List TimerRec → List (Nat × ZhaEvent)
  | [] => []
  | tm :: rest =>
      (if tm.pending = true ∧ tm.deadline < t then (cb cnt).map (fun e => (tm.deadline, e)) else [])
        ++ firedEmissions cb cnt t rest

/-- Mark every timer whose deadline lies strictly before `t` as no
longer pending (its `_job` has run). -/
def expireTimers (t : Nat) : List TimerRec → List TimerRec
  | [] => []
  | tm :: rest =>
      (if tm.pending = true ∧ tm.deadline < t then { tm with pending := false } else tm)
        :: expireTimers t rest

/-- Advance the event loop to time `t`: fire every pending timer whose
deadline has passed. -/
def fireTimers (s : SimState) (t : Nat) : SimState :=
  { q := { s.q with timers := expireTimers t s.q.timers }
    out := s.out ++ firedEmissions s.q.callback s.q.click_counter t s.q.timers }

/-- `PhilipsRemoteCluster.handle_cluster_request` proper: decode the
button and press type, then either forward to the debouncer (press) or
emit immediately (every other press type).  `none` models the
`IndexError` on a short argument list. -/
def handle_cluster_request (s : SimState) (n : Notif) : Option SimState :=
  match decodeBP n.args with
  | none => none
  | some (button, press_type) =>
      if press_type = Val.label "press" then
        some { s with q := s.q.press (send_press_event button n.command_id n.args) button n.time }
      else
        some { s with out := s.out ++
          [(n.time,
            { action := fmtVal button ++ "_" ++ fmtVal press_type
              button := button
              press_type := press_type
              command_id := n.command_id
              args := n.args })] }

/-- Deliver one notification: the event loop first runs every timer due
before the notification's arrival, then the cluster handler runs. -/
def processNotif (s : SimState) (n : Notif) : Option SimState :=
  handle_cluster_request (fireTimers s n.time) n

/-- Deliver a time-ordered list of notifications. -/
def processAll (s : SimState) : List Notif → Option SimState
  | [] => some s
  | n :: rest =>
      match processNotif s n with
      | none => none
      | some s2 => processAll s2 rest

/-- Run a trace of notifications from the freshly constructed cluster. -/
def runTrace (ns : List Notif) : Option SimState :=
  processAll initSim ns

/-- Events produced when the event loop finally runs every timer still
pending after the last notification (quiescence). -/
def flushEmissions (cb : Nat → List ZhaEvent) (cnt : Nat) : List TimerRec → List (Nat × ZhaEvent)
  | [] => []
  | tm :: rest =>
      (if tm.pending = true then (cb cnt).map (fun e => (tm.deadline, e)) else [])
        ++ flushEmissions cb cnt rest

/-- Let every remaining pending timer fire. -/
def flushTimers (s : SimState) : SimState :=
  { q := { s.q with timers := s.q.timers.map (fun tm => { tm with pending := false }) }
    out := s.out ++ flushEmissions s.q.callback s.q.click_counter s.q.timers }

/-- Run a trace to quiescence and return the full chronological emission
list, or `none` if some notification crashed the handler. -/
def runToEnd (ns : List Notif) : Option (List (Nat × ZhaEvent)) :=
  (runTrace ns).map (fun s => (flushTimers s).out)

/-- Number of pending timer tasks of the debouncer. -/
def pendingCount (q : ButtonPressQueue) : Nat :=
  (q.timers.filter (fun tm => tm.pending)).length

/-- Queue state in the middle of a burst: after `k ≥ 1` accepted presses
on button `b`, the last at time `tl`, the queue holds a history of
spent timers `dead`, one live timer with deadline `tl + 300`, the task
slot pointing at it, and the callback of the most recent
notification. -/
def burstQ (b : Val) (k tl : Nat) (cb : Nat → List ZhaEvent) (dead : List TimerRec) :
    ButtonPressQueue :=
  { ms_threshold := 300
    ms_last_click := tl
    click_counter := k
    button := some b
    callback := cb
    task := some dead.length
    timers := dead ++ [{ deadline := tl + 300, pending := true }] }

/-- Spacing constraint actually maintained by the code: relative to the
previous press at `tl`, each next press arrives no later than
`tl + 300` (a gap of exactly the threshold still extends the burst). -/
def chainFrom (tl : Nat) : List Notif → Prop
  | [] => True
  | m :: r => m.time ≤ tl + 300 ∧ chainFrom m.time r

instance instDecChainFrom : ∀ (tl : Nat) (ns : List Notif), Decidable (chainFrom tl ns)
  | _, [] => isTrue trivial
  | _tl, m :: r =>
      have : Decidable (chainFrom m.time r) := instDecChainFrom m.time r
      inferInstanceAs (Decidable (_ ∧ _))

/-- The spec's spacing constraint: nondecreasing times with consecutive
gaps strictly below the 300 ms threshold. -/
def spacedStrict (tl : Nat) : List Notif → Prop
  | [] => True
  | m :: r => tl ≤ m.time ∧ m.time - tl < 300 ∧ spacedStrict m.time r

instance instDecSpacedStrict : ∀ (tl : Nat) (ns : List Notif), Decidable (spacedStrict tl ns)
  | _, [] => isTrue trivial
  | _tl, m :: r =>
      have : Decidable (spacedStrict m.time r) := instDecSpacedStrict m.time r
      inferInstanceAs (Decidable (_ ∧ _ ∧ _))

/-- Last notification of a burst, seeded with a default. -/
def lastD (d : Notif) : List Notif → Notif
  | [] => d
  | m :: r => lastD m r

/-- Timestamp of the last press, seeded with the previous press time. -/
def lastTimeFrom (tl : Nat) : List Notif → Nat
  | [] => tl
  | m :: r => lastTimeFrom m.time r

/-- Callback registered after the whole burst: each press overwrites the
slot, so the survivor is the last notification's closure. -/
def lastCb (b : Val) (cb : Nat → List ZhaEvent) : List Notif → (Nat → List ZhaEvent)
  | [] => cb
  | m :: r => lastCb b (send_press_event b m.command_id m.args) r

/-- Mapping of a final click count to its press-type label, as in the
`send_press_event` if-chain (meaningful for counts ≥ 1). -/
def clickLabel (k : Nat) : String :=
  if k = 1 then "press"
  else if k = 2 then "double_press"
  else if k = 3 then "triple_press"
  else if k = 4 then "quadruple_press"
  else "quintuple_press"

/-- Invariant of every reachable debouncer state: the threshold is the
constant 300; either no task was ever scheduled and the timer history
is empty, or the history splits into spent timers plus one final timer
referenced by the task slot, and if that final timer is still pending
its deadline is exactly `ms_last_click + 300`. -/
def GoodQ (q : ButtonPressQueue) : Prop :=
  q.ms_threshold = 300 ∧
  ((q.task = none ∧ q.timers = []) ∨
    (∃ dead lv, q.timers = dead ++ [lv] ∧ (∀ tm ∈ dead, tm.pending = false) ∧
      q.task = some dead.length ∧
      (lv.pending = true → lv.deadline = q.ms_last_click + 300)))

/-! ### List bookkeeping lemmas for the timer history -/

lemma expireTimers_append (t : Nat) (l1 l2 : List TimerRec) :
    expireTimers t (l1 ++ l2) = expireTimers t l1 ++ expireTimers t l2 := by
  induction l1 with
  | nil => rfl
  | cons tm rest ih => simp [expireTimers, ih]

lemma firedEmissions_append (cb : Nat → List ZhaEvent) (cnt t : Nat) (l1 l2 : List TimerRec) :
    firedEmissions cb cnt t (l1 ++ l2)
      = firedEmissions cb cnt t l1 ++ firedEmissions cb cnt t l2 := by
  induction l1 with
  | nil => rfl
  | cons tm rest ih => simp [firedEmissions, ih]

lemma flushEmissions_append (cb : Nat → List ZhaEvent) (cnt : Nat) (l1 l2 : List TimerRec) :
    flushEmissions cb cnt (l1 ++ l2)
      = flushEmissions cb cnt l1 ++ flushEmissions cb cnt l2 := by
  induction l1 with
  | nil => rfl
  | cons tm rest ih => simp [flushEmissions, ih]

lemma expireTimers_of_notPending (t : Nat) :
    ∀ l : List TimerRec, (∀ tm ∈ l, tm.pending = false) → expireTimers t l = l
  | [], _ => rfl
  | tm :: rest, h => by
      have h0 := h tm (List.mem_cons_self _ _)
      have ih := expireTimers_of_notPending t rest (fun x hx => h x (List.mem_cons_of_mem _ hx))
      simp [expireTimers, h0, ih]

lemma firedEmissions_of_notPending (cb : Nat → List ZhaEvent) (cnt t : Nat) :
    ∀ l : List TimerRec, (∀ tm ∈ l, tm.pending = false) → firedEmissions cb cnt t l = []
  | [], _ => rfl
  | tm :: rest, h => by
      have h0 := h tm (List.mem_cons_self _ _)
      have ih := firedEmissions_of_notPending cb cnt t rest
        (fun x hx => h x (List.mem_cons_of_mem _ hx))
      simp [firedEmissions, h0, ih]

lemma flushEmissions_of_notPending (cb : Nat → List ZhaEvent) (cnt : Nat) :
    ∀ l : List TimerRec, (∀ tm ∈ l, tm.pending = false) → flushEmissions cb cnt l = []
  | [], _ => rfl
  | tm :: rest, h => by
      have h0 := h tm (List.mem_cons_self _ _)
      have ih := flushEmissions_of_notPending cb cnt rest
        (fun x hx => h x (List.mem_cons_of_mem _ hx))
      simp [flushEmissions, h0, ih]

lemma cancelAt_append (l : List TimerRec) (x : TimerRec) :
    cancelAt (l ++ [x]) l.length = l ++ [{ x with pending := false }] := by
  induction l with
  | nil => rfl
  | cons tm rest ih => simp [cancelAt, ih]

/-! ### The in-burst state shape -/

/-- The first press ever delivered to a fresh queue enters the burst
shape with count 1. -/
lemma first_press (n : Notif) (b : Val)
    (hdec : decodeBP n.args = some (b, Val.label "press")) :
    processNotif initSim n
      = some ⟨burstQ b 1 n.time (send_press_event b n.command_id n.args) [], []⟩ := by
  simp [processNotif, fireTimers, handle_cluster_request, hdec, initSim, initQueue,
    expireTimers, firedEmissions, ButtonPressQueue.press, ButtonPressQueue.reset,
    ButtonPressQueue.cancelTask, burstQ]

/-- A press on the active button within the debounce window cancels the
live timer and increments the counter. -/
lemma press_step (b : Val) (k tl : Nat) (cb : Nat → List ZhaEvent) (dead : List TimerRec)
    (o : List (Nat × ZhaEvent)) (n : Notif)
    (hdec : decodeBP n.args = some (b, Val.label "press"))
    (h2 : n.time ≤ tl + 300)
    (hdead : ∀ tm ∈ dead, tm.pending = false) :
    processNotif ⟨burstQ b k tl cb dead, o⟩ n
      = some ⟨burstQ b (k + 1) n.time (send_press_event b n.command_id n.args)
              (dead ++ [{ deadline := tl + 300, pending := false }]), o⟩ := by
  have hlive : ¬ (tl + 300 < n.time) := by omega
  have hexp : expireTimers n.time (dead ++ [{ deadline := tl + 300, pending := true }])
      = dead ++ [{ deadline := tl + 300, pending := true }] := by
    rw [expireTimers_append, expireTimers_of_notPending _ _ hdead]
    simp [expireTimers, hlive]
  have hfira : firedEmissions cb k n.time (dead ++ [{ deadline := tl + 300, pending := true }])
      = [] := by
    rw [firedEmissions_append, firedEmissions_of_notPending _ _ _ _ hdead]
    simp [firedEmissions, hlive]
  have hgap : ¬ (300 < n.time - tl) := by omega
  have hcan := cancelAt_append dead ({ deadline := tl + 300, pending := true } : TimerRec)
  simp [processNotif, fireTimers, handle_cluster_request, hdec, burstQ,
    ButtonPressQueue.press, ButtonPressQueue.cancelTask, hexp, hfira, hgap, hcan,
    List.append_assoc]

/-- A press on the active button after the window elapsed: the live
timer has already fired (emitting the previous burst's event) and the
counter restarts at 1; no cancellation happens in this branch. -/
lemma separated_press (b : Val) (k tl : Nat) (cb : Nat → List ZhaEvent) (dead : List TimerRec)
    (o : List (Nat × ZhaEvent)) (n : Notif)
    (hdec : decodeBP n.args = some (b, Val.label "press"))
    (hgt : tl + 300 < n.time)
    (hdead : ∀ tm ∈ dead, tm.pending = false) :
    processNotif ⟨burstQ b k tl cb dead, o⟩ n
      = some ⟨burstQ b 1 n.time (send_press_event b n.command_id n.args)
              (dead ++ [{ deadline := tl + 300, pending := false }]),
              o ++ (cb k).map (fun e => (tl + 300, e))⟩ := by
  have hexp : expireTimers n.time (dead ++ [{ deadline := tl + 300, pending := true }])
      = dead ++ [{ deadline := tl + 300, pending := false }] := by
    rw [expireTimers_append, expireTimers_of_notPending _ _ hdead]
    simp [expireTimers, hgt]
  have hfira : firedEmissions cb k n.time (dead ++ [{ deadline := tl + 300, pending := true }])
      = (cb k).map (fun e => (tl + 300, e)) := by
    rw [firedEmissions_append, firedEmissions_of_notPending _ _ _ _ hdead]
    simp [firedEmissions, hgt]
  have hgap : 300 < n.time - tl := by omega
  simp [processNotif, fireTimers, handle_cluster_request, hdec, burstQ,
    ButtonPressQueue.press, ButtonPressQueue.cancelTask, hexp, hfira, hgap,
    List.append_assoc]

/-- A press on a different button while the window is still open: the
live timer is cancelled by `_reset`, the counter restarts at 1 for the
new button, and nothing is emitted for the interrupted burst. -/
lemma switch_press (b b2 : Val) (k tl : Nat) (cb : Nat → List ZhaEvent) (dead : List TimerRec)
    (o : List (Nat × ZhaEvent)) (n : Notif)
    (hdec : decodeBP n.args = some (b2, Val.label "press"))
    (hne : b2 ≠ b)
    (h2 : n.time ≤ tl + 300)
    (hdead : ∀ tm ∈ dead, tm.pending = false) :
    processNotif ⟨burstQ b k tl cb dead, o⟩ n
      = some ⟨burstQ b2 1 n.time (send_press_event b2 n.command_id n.args)
              (dead ++ [{ deadline := tl + 300, pending := false }]), o⟩ := by
  have hlive : ¬ (tl + 300 < n.time) := by omega
  have hexp : expireTimers n.time (dead ++ [{ deadline := tl + 300, pending := true }])
      = dead ++ [{ deadline := tl + 300, pending := true }] := by
    rw [expireTimers_append, expireTimers_of_notPending _ _ hdead]
    simp [expireTimers, hlive]
  have hfira : firedEmissions cb k n.time (dead ++ [{ deadline := tl + 300, pending := true }])
      = [] := by
    rw [firedEmissions_append, firedEmissions_of_notPending _ _ _ _ hdead]
    simp [firedEmissions, hlive]
  have hcan := cancelAt_append dead ({ deadline := tl + 300, pending := true } : TimerRec)
  have hbne : some b ≠ some b2 := by
    intro h
    exact hne (Option.some.inj h).symm
  simp [processNotif, fireTimers, handle_cluster_request, hdec, burstQ,
    ButtonPressQueue.press, ButtonPressQueue.reset, ButtonPressQueue.cancelTask,
    hexp, hfira, hcan, hbne, List.append_assoc]

/-! ### Running a whole burst -/

lemma spacedStrict_chainFrom : ∀ (tl : Nat) (ns : List Notif),
    spacedStrict tl ns → chainFrom tl ns
  | _, [], _ => trivial
  | tl, m :: r, h => by
      obtain ⟨h1, h2, h3⟩ := h
      exact ⟨by omega, spacedStrict_chainFrom m.time r h3⟩

lemma lastTimeFrom_eq_lastD : ∀ (rest : List Notif) (m : Notif),
    lastTimeFrom m.time rest = (lastD m rest).time
  | [], _ => rfl
  | r :: rs, m => by simp [lastTimeFrom, lastD, lastTimeFrom_eq_lastD rs r]

lemma lastCb_spe (b : Val) : ∀ (rest : List Notif) (m : Notif),
    lastCb b (send_press_event b m.command_id m.args) rest
      = send_press_event b (lastD m rest).command_id (lastD m rest).args
  | [], _ => rfl
  | r :: rs, m => by simp [lastCb, lastD, lastCb_spe b rs r]

/-- Processing a chain of in-window presses on the active button from an
in-burst state keeps the burst shape, adding one click per press. -/
lemma burst_run (b : Val) :
    ∀ (ns : List Notif) (k tl : Nat) (cb : Nat → List ZhaEvent) (dead : List TimerRec)
      (o : List (Nat × ZhaEvent)),
    (∀ m ∈ ns, decodeBP m.args = some (b, Val.label "press")) →
    chainFrom tl ns →
    (∀ tm ∈ dead, tm.pending = false) →
    ∃ dead2, (∀ tm ∈ dead2, tm.pending = false) ∧
      processAll ⟨burstQ b k tl cb dead, o⟩ ns
        = some ⟨burstQ b (k + ns.length) (lastTimeFrom tl ns) (lastCb b cb ns) dead2, o⟩
  | [], k, tl, cb, dead, o, _, _, hdead => by
      exact ⟨dead, hdead, by simp [processAll, lastTimeFrom, lastCb]⟩
  | m :: r, k, tl, cb, dead, o, hp, hc, hdead => by
      obtain ⟨h2, hc2⟩ := hc
      have hstep := press_step b k tl cb dead o m (hp m (List.mem_cons_self _ _)) h2 hdead
      have hdead2 : ∀ tm ∈ dead ++ [({ deadline := tl + 300, pending := false } : TimerRec)],
          tm.pending = false := by
        intro tm htm
        rcases List.mem_append.mp htm with h | h
        · exact hdead tm h
        · simp at h
          simp [h]
      obtain ⟨dead2, hd2, hrun⟩ :=
        burst_run b r (k + 1) m.time (send_press_event b m.command_id m.args)
          (dead ++ [{ deadline := tl + 300, pending := false }]) o
          (fun x hx => hp x (List.mem_cons_of_mem _ hx)) hc2 hdead2
      refine ⟨dead2, hd2, ?_⟩
      have hlen : k + (m :: r).length = k + 1 + r.length := by simp; omega
      rw [hlen]
      simp [processAll, hstep, hrun, lastTimeFrom, lastCb]

/-- Flushing an in-burst state fires the single live timer at its
deadline with the current counter. -/
lemma flush_burst (b : Val) (k tl : Nat) (cb : Nat → List ZhaEvent) (dead : List TimerRec)
    (o : List (Nat × ZhaEvent)) (hdead : ∀ tm ∈ dead, tm.pending = false) :
    (flushTimers ⟨burstQ b k tl cb dead, o⟩).out
      = o ++ (cb k).map (fun e => (tl + 300, e)) := by
  simp [flushTimers, burstQ, flushEmissions_append,
    flushEmissions_of_notPending _ _ _ hdead, flushEmissions]

lemma spe_pos (b : Val) (cid : Nat) (args : List Nat) (k : Nat) (hk : 1 ≤ k) :
    send_press_event b cid args k
      = [{ action := fmtVal b ++ "_" ++ clickLabel k
           button := b
           press_type := .label (clickLabel k)
           command_id := cid
           args := args }] := by
  rcases k with _ | _ | _ | _ | _ | k
  · omega
  · simp [send_press_event, clickLabel]
  · simp [send_press_event, clickLabel]
  · simp [send_press_event, clickLabel]
  · simp [send_press_event, clickLabel]
  · have h1 : ¬ (k + 5 = 1) := by omega
    have h2 : ¬ (k + 5 = 2) := by omega
    have h3 : ¬ (k + 5 = 3) := by omega
    have h4 : ¬ (k + 5 = 4) := by omega
    have h5 : 4 < k + 5 := by omega
    simp [send_press_event, clickLabel, h1, h2, h3, h4, h5]

/-- Master lemma: a nonempty in-window burst of presses on button `b`,
run from the fresh state to quiescence, emits exactly one event, 300 ms
after the last press, labelled by the total count, with payload taken
from the last notification. -/
lemma whole_burst (b : Val) (n : Notif) (rest : List Notif)
    (hp : ∀ m ∈ n :: rest, decodeBP m.args = some (b, Val.label "press"))
    (hc : chainFrom n.time rest) :
    runToEnd (n :: rest)
      = some [((lastD n rest).time + 300,
          { action := fmtVal b ++ "_" ++ clickLabel (rest.length + 1)
            button := b
            press_type := Val.label (clickLabel (rest.length + 1))
            command_id := (lastD n rest).command_id
            args := (lastD n rest).args })] := by
  have h1 := first_press n b (hp n (List.mem_cons_self _ _))
  obtain ⟨dead2, hd2, hrun⟩ :=
    burst_run b rest 1 n.time (send_press_event b n.command_id n.args) [] []
      (fun m hm => hp m (List.mem_cons_of_mem _ hm)) hc (by simp)
  have hone : 1 + rest.length = rest.length + 1 := by omega
  unfold runToEnd runTrace
  simp only [processAll, h1, hrun, Option.map_some']
  rw [lastCb_spe b rest n, lastTimeFrom_eq_lastD rest n, hone]
  rw [flush_burst b (rest.length + 1) (lastD n rest).time _ dead2 [] hd2]
  rw [spe_pos b (lastD n rest).command_id (lastD n rest).args (rest.length + 1) (by omega)]
  simp

/-! ### Branch characterizations of `press` -/

/-- Branch 1 of `press`: the button changed, so `_reset` cancels any
referenced task and restarts the counter at 1. -/
lemma press_char_ne (q : ButtonPressQueue) (cb : Nat → List ZhaEvent) (b : Val) (t : Nat)
    (h : q.button ≠ some b) :
    q.press cb b t =
      { ms_threshold := q.ms_threshold
        ms_last_click := t
        click_counter := 1
        button := some b
        callback := cb
        task := some q.cancelTask.timers.length
        timers := q.cancelTask.timers ++ [{ deadline := t + q.ms_threshold, pending := true }] } := by
  unfold ButtonPressQueue.press ButtonPressQueue.reset ButtonPressQueue.cancelTask
  rcases htask : q.task with _ | i <;> simp [h, htask]

/-- Branch 2 of `press`: same button, gap beyond the threshold — the
counter restarts at 1 with no cancellation. -/
lemma press_char_far (q : ButtonPressQueue) (cb : Nat → List ZhaEvent) (b : Val) (t : Nat)
    (h : q.button = some b) (h2 : q.ms_threshold < t - q.ms_last_click) :
    q.press cb b t =
      { ms_threshold := q.ms_threshold
        ms_last_click := t
        click_counter := 1
        button := some b
        callback := cb
        task := some q.timers.length
        timers := q.timers ++ [{ deadline := t + q.ms_threshold, pending := true }] } := by
  unfold ButtonPressQueue.press
  simp [h, h2]

/-- Branch 3 of `press`: same button within the window — cancel the
referenced task and increment the counter. -/
lemma press_char_near (q : ButtonPressQueue) (cb : Nat → List ZhaEvent) (b : Val) (t : Nat)
    (h : q.button = some b) (h2 : ¬ (q.ms_threshold < t - q.ms_last_click)) :
    q.press cb b t =
      { ms_threshold := q.ms_threshold
        ms_last_click := t
        click_counter := q.click_counter + 1
        button := some b
        callback := cb
        task := some q.cancelTask.timers.length
        timers := q.cancelTask.timers ++ [{ deadline := t + q.ms_threshold, pending := true }] } := by
  unfold ButtonPressQueue.press ButtonPressQueue.reset ButtonPressQueue.cancelTask
  rcases htask : q.task with _ | i <;> simp [h, h2, htask]

/-! ### The reachable-state invariant -/

lemma GoodQ_init : GoodQ initQueue :=
  ⟨rfl, Or.inl ⟨rfl, rfl⟩⟩

/-- After the event loop has caught up to time `t`, no pending timer has
a deadline before `t`. -/
lemma expireTimers_safe (t : Nat) :
    ∀ (l : List TimerRec) (tm : TimerRec), tm ∈ expireTimers t l → tm.pending = true →
      ¬ (tm.deadline < t)
  | [], _, h, _ => by cases h
  | hd :: rest, tm, h, hp => by
      rw [expireTimers] at h
      rcases List.mem_cons.mp h with h0 | h0
      · by_cases hc : hd.pending = true ∧ hd.deadline < t
        · rw [if_pos hc] at h0
          subst h0
          simp at hp
        · rw [if_neg hc] at h0
          subst h0
          intro hlt
          exact hc ⟨hp, hlt⟩
      · exact expireTimers_safe t rest tm h0 hp

lemma GoodQ_fireTimers (s : SimState) (t : Nat) (hq : GoodQ s.q) :
    GoodQ (fireTimers s t).q := by
  obtain ⟨hth, hcase⟩ := hq
  refine ⟨hth, ?_⟩
  rcases hcase with ⟨htask, htimers⟩ | ⟨dead, lv, htimers, hdead, htask, hdl⟩
  · left
    exact ⟨htask, by simp [fireTimers, htimers, expireTimers]⟩
  · right
    by_cases hc : lv.pending = true ∧ lv.deadline < t
    · refine ⟨dead, { lv with pending := false }, ?_, hdead, ?_, ?_⟩
      · simp [fireTimers, htimers, expireTimers_append,
          expireTimers_of_notPending _ _ hdead, expireTimers, hc]
      · simp [fireTimers, htask]
      · intro h
        simp at h
    · refine ⟨dead, lv, ?_, hdead, ?_, ?_⟩
      · simp [fireTimers, htimers, expireTimers_append,
          expireTimers_of_notPending _ _ hdead, expireTimers, hc]
      · simp [fireTimers, htask]
      · intro h
        simpa [fireTimers] using hdl h

lemma cancelTask_timers_of_shape (q : ButtonPressQueue) (dead : List TimerRec) (lv : TimerRec)
    (htimers : q.timers = dead ++ [lv]) (htask : q.task = some dead.length) :
    q.cancelTask.timers = dead ++ [{ lv with pending := false }] := by
  unfold ButtonPressQueue.cancelTask
  rw [htask]
  simp [htimers, cancelAt_append]

/-- `press`, applied at a moment the event loop has caught up to,
preserves the invariant. -/
lemma GoodQ_press (q : ButtonPressQueue) (cb : Nat → List ZhaEvent) (b : Val) (t : Nat)
    (hq : GoodQ q)
    (hsafe : ∀ tm ∈ q.timers, tm.pending = true → ¬ (tm.deadline < t)) :
    GoodQ (q.press cb b t) := by
  obtain ⟨hth, hcase⟩ := hq
  rcases hcase with ⟨htask, htimers⟩ | ⟨dead, lv, htimers, hdead, htask, hdl⟩
  · have hct : q.cancelTask = q := by
      unfold ButtonPressQueue.cancelTask
      rw [htask]
    by_cases hb : q.button ≠ some b
    · rw [press_char_ne q cb b t hb, hct]
      refine ⟨hth, Or.inr ⟨[], { deadline := t + q.ms_threshold, pending := true },
        ?_, by simp, ?_, ?_⟩⟩
      · simp [htimers]
      · simp [htimers]
      · intro _
        simp [hth]
    · push_neg at hb
      by_cases h2 : q.ms_threshold < t - q.ms_last_click
      · rw [press_char_far q cb b t hb h2]
        refine ⟨hth, Or.inr ⟨[], { deadline := t + q.ms_threshold, pending := true },
          ?_, by simp, ?_, ?_⟩⟩
        · simp [htimers]
        · simp [htimers]
        · intro _
          simp [hth]
      · rw [press_char_near q cb b t hb h2, hct]
        refine ⟨hth, Or.inr ⟨[], { deadline := t + q.ms_threshold, pending := true },
          ?_, by simp, ?_, ?_⟩⟩
        · simp [htimers]
        · simp [htimers]
        · intro _
          simp [hth]
  · have hct := cancelTask_timers_of_shape q dead lv htimers htask
    by_cases hb : q.button ≠ some b
    · rw [press_char_ne q cb b t hb, hct]
      refine ⟨hth, Or.inr ⟨dead ++ [{ lv with pending := false }],
        { deadline := t + q.ms_threshold, pending := true }, rfl, ?_, rfl, ?_⟩⟩
      · intro tm htm
        rcases List.mem_append.mp htm with h | h
        · exact hdead tm h
        · simp at h
          simp [h]
      · intro _
        simp [hth]
    · push_neg at hb
      by_cases h2 : q.ms_threshold < t - q.ms_last_click
      · rw [press_char_far q cb b t hb h2]
        have hlvnp : lv.pending = false := by
          cases hlv : lv.pending
          · rfl
          · exfalso
            have h3 := hsafe lv (by rw [htimers]; exact List.mem_append_right _ (by simp)) hlv
            have h4 := hdl hlv
            rw [hth] at h2
            rw [h4] at h3
            omega
        refine ⟨hth, Or.inr ⟨dead ++ [lv],
          { deadline := t + q.ms_threshold, pending := true },
          by rw [htimers], ?_, by rw [htimers], ?_⟩⟩
        · intro tm htm
          rcases List.mem_append.mp htm with h | h
          · exact hdead tm h
          · simp at h
            rw [h]
            exact hlvnp
        · intro _
          simp [hth]
      · rw [press_char_near q cb b t hb h2, hct]
        refine ⟨hth, Or.inr ⟨dead ++ [{ lv with pending := false }],
          { deadline := t + q.ms_threshold, pending := true }, rfl, ?_, rfl, ?_⟩⟩
        · intro tm htm
          rcases List.mem_append.mp htm with h | h
          · exact hdead tm h
          · simp at h
            simp [h]
        · intro _
          simp [hth]

/-- One delivered notification preserves the invariant. -/
lemma GoodQ_processNotif (s : SimState) (n : Notif) (s2 : SimState)
    (hg : GoodQ s.q) (hp : processNotif s n = some s2) : GoodQ s2.q := by
  have hgf := GoodQ_fireTimers s n.time hg
  unfold processNotif handle_cluster_request at hp
  split at hp
  · exact Option.noConfusion hp
  · split at hp
    · rw [← Option.some.inj hp]
      exact GoodQ_press _ _ _ _ hgf
        (fun tm htm => expireTimers_safe n.time s.q.timers tm htm)
    · rw [← Option.some.inj hp]
      exact hgf

/-- Trace induction: a property preserved by every delivered
notification holds at the end of every successful run. -/
lemma processAll_inv (P : SimState → Prop)
    (hstep : ∀ s n s2, P s → processNotif s n = some s2 → P s2) :
    ∀ (ns : List Notif) (s s2 : SimState), P s → processAll s ns = some s2 → P s2
  | [], s, s2, hs, h => by
      unfold processAll at h
      rw [← Option.some.inj h]
      exact hs
  | n :: rest, s, s2, hs, h => by
      unfold processAll at h
      rcases hpn : processNotif s n with _ | s1
      · rw [hpn] at h
        cases h
      · rw [hpn] at h
        exact processAll_inv P hstep rest s1 s2 (hstep s n s1 hs hpn) h

/-- Every state reachable by a trace from the fresh cluster satisfies
the invariant. -/
lemma GoodQ_runTrace (ns : List Notif) (s : SimState) (h : runTrace ns = some s) :
    GoodQ s.q :=
  processAll_inv (fun st => GoodQ st.q) GoodQ_processNotif ns initSim s GoodQ_init h

lemma pendingCount_of_GoodQ (q : ButtonPressQueue) (hq : GoodQ q) : pendingCount q ≤ 1 := by
  obtain ⟨_, hcase⟩ := hq
  rcases hcase with ⟨_, htimers⟩ | ⟨dead, lv, htimers, hdead, _, _⟩
  · simp [pendingCount, htimers]
  · unfold pendingCount
    rw [htimers, List.filter_append]
    have hnil : dead.filter (fun tm => tm.pending) = [] := by
      rw [List.filter_eq_nil_iff]
      intro tm htm
      simp [hdead tm htm]
    rw [hnil]
    cases hlv : lv.pending <;> simp [List.filter, hlv]

/-- The counter after any `press` is either 1 or the old counter plus
one. -/
lemma press_counter_cases (q : ButtonPressQueue) (cb : Nat → List ZhaEvent) (b : Val) (t : Nat) :
    (q.press cb b t).click_counter = 1 ∨
      (q.press cb b t).click_counter = q.click_counter + 1 := by
  by_cases hb : q.button ≠ some b
  · left
    rw [press_char_ne q cb b t hb]
  · push_neg at hb
    by_cases h2 : q.ms_threshold < t - q.ms_last_click
    · left
      rw [press_char_far q cb b t hb h2]
    · right
      rw [press_char_near q cb b t hb h2]

/-- The click counter stays at least 1 across any delivered
notification. -/
lemma counter_pos_processNotif (s : SimState) (n : Notif) (s2 : SimState)
    (hc : 1 ≤ s.q.click_counter) (hp : processNotif s n = some s2) :
    1 ≤ s2.q.click_counter := by
  unfold processNotif handle_cluster_request at hp
  split at hp
  case _ => exact Option.noConfusion hp
  case _ x b pt heq =>
    split at hp
    · rw [← Option.some.inj hp]
      show 1 ≤ ((fireTimers s n.time).q.press
        (send_press_event b n.command_id n.args) b n.time).click_counter
      have hfc : (fireTimers s n.time).q.click_counter = s.q.click_counter := rfl
      rcases press_counter_cases (fireTimers s n.time).q
        (send_press_event b n.command_id n.args) b n.time with h | h <;> omega
    · rw [← Option.some.inj hp]
      exact hc

/-- The non-press branch of the handler from a quiescent state: one
immediate emission carrying the decoded values, queue untouched. -/
lemma immediate_emit (s : SimState) (n : Notif) (b pt : Val)
    (hdec : decodeBP n.args = some (b, pt))
    (hpt : pt ≠ Val.label "press")
    (hnp : ∀ tm ∈ s.q.timers, tm.pending = false) :
    processNotif s n = some { s with out := s.out ++ [(n.time,
      { action := fmtVal b ++ "_" ++ fmtVal pt
        button := b
        press_type := pt
        command_id := n.command_id
        args := n.args })] } := by
  simp [processNotif, handle_cluster_request, fireTimers, hdec, hpt,
    expireTimers_of_notPending _ _ hnp, firedEmissions_of_notPending _ _ _ _ hnp]

/-- A lone non-press notification run to quiescence: exactly one event,
emitted at its own arrival time. -/
lemma immediate_runToEnd (n : Notif) (b pt : Val)
    (hdec : decodeBP n.args = some (b, pt))
    (hpt : pt ≠ Val.label "press") :
    runToEnd [n] = some [(n.time,
      { action := fmtVal b ++ "_" ++ fmtVal pt
        button := b
        press_type := pt
        command_id := n.command_id
        args := n.args })] := by
  have h := immediate_emit initSim n b pt hdec hpt (by simp [initSim, initQueue])
  unfold runToEnd runTrace
  simp only [processAll, h, Option.map_some']
  simp [flushTimers, flushEmissions, initSim, initQueue]

lemma processAll_cons_some (s : SimState) (n : Notif) (s2 : SimState) (rest : List Notif)
    (h : processNotif s n = some s2) : processAll s (n :: rest) = processAll s2 rest := by
  simp [processAll, h]

lemma processAll_append (l1 l2 : List Notif) : ∀ s s1 : SimState,
    processAll s l1 = some s1 → processAll s (l1 ++ l2) = processAll s1 l2 := by
  induction l1 with
  | nil =>
      intro s s1 h
      unfold processAll at h
      rw [← Option.some.inj h]
      rfl
  | cons n rest ih =>
      intro s s1 h
      rcases hpn : processNotif s n with _ | s2
      · unfold processAll at h
        rw [hpn] at h
        simp at h
      · have h2 : processAll s2 rest = some s1 := by
          unfold processAll at h
          rw [hpn] at h
          simpa using h
        rw [List.cons_append, processAll_cons_some s n s2 (rest ++ l2) hpn]
        exact ih s2 s1 h2

/-- An unknown button code decodes to its raw numeric value. -/
lemma decode_button_unknown (a0 : Nat) (h : a0 ∉ [1, 2, 3, 4]) :
    decodeVal BUTTONS a0 = Val.code a0 := by
  simp at h
  obtain ⟨h1, h2, h3, h4⟩ := h
  simp [decodeVal, BUTTONS, h1, h2, h3, h4]

/-- An unknown press-type code decodes to its raw numeric value. -/
lemma decode_ptype_unknown (a2 : Nat) (h : a2 ∉ [0, 1, 2, 3]) :
    decodeVal PRESS_TYPES a2 = Val.code a2 := by
  simp at h
  obtain ⟨h1, h2, h3, h4⟩ := h
  simp [decodeVal, PRESS_TYPES, h1, h2, h3, h4]

/-- Any press-type code other than 0 decodes to something other than the
`"press"` label. -/
lemma decode_ptype_ne_press (a2 : Nat) (h : a2 ≠ 0) :
    decodeVal PRESS_TYPES a2 ≠ Val.label "press" := by
  unfold decodeVal PRESS_TYPES
  rw [if_neg h]
  split_ifs <;> simp

/-- Decoding of a sufficiently long argument list always succeeds. -/
lemma decodeBP_of_len (args : List Nat) (h : 3 ≤ args.length) :
    ∃ a0 a2, args.get? 0 = some a0 ∧ args.get? 2 = some a2 ∧
      decodeBP args = some (decodeVal BUTTONS a0, decodeVal PRESS_TYPES a2) := by
  rcases args with _ | ⟨x0, _ | ⟨x1, _ | ⟨x2, r⟩⟩⟩
  · simp at h
  · simp at h
  · simp at h
  · exact ⟨x0, x2, rfl, rfl, rfl⟩

/-! ### The claims -/

/-- Claim C1: for every burst of N presses (2 ≤ N) on one button, each
consecutive pair spaced less than 300 ms apart, exactly one event is
emitted, 300 ms after the last press, and its press-type label matches
N — double_press for 2, triple_press for 3, quadruple_press for 4, and
quintuple_press for every N ≥ 5 regardless of the exact count. -/
theorem multi_press_emits_one_matching_event (b : Val) (n : Notif) (rest : List Notif)
    (hp : ∀ m ∈ n :: rest, decodeBP m.args = some (b, Val.label "press"))
    (hsp : spacedStrict n.time rest)
    (_hlen : 2 ≤ (n :: rest).length) :
    ∃ ev : ZhaEvent,
      runToEnd (n :: rest) = some [((lastD n rest).time + 300, ev)] ∧
      ((n :: rest).length = 2 → ev.press_type = Val.label "double_press") ∧
      ((n :: rest).length = 3 → ev.press_type = Val.label "triple_press") ∧
      ((n :: rest).length = 4 → ev.press_type = Val.label "quadruple_press") ∧
      (5 ≤ (n :: rest).length → ev.press_type = Val.label "quintuple_press") := by
  have hc := spacedStrict_chainFrom n.time rest hsp
  refine ⟨_, whole_burst b n rest hp hc, ?_, ?_, ?_, ?_⟩
  · intro hN
    have hr : rest.length = 1 := by
      simp at hN
      omega
    simp [hr, clickLabel]
  · intro hN
    have hr : rest.length = 2 := by
      simp at hN
      omega
    simp [hr, clickLabel]
  · intro hN
    have hr : rest.length = 3 := by
      simp at hN
      omega
    simp [hr, clickLabel]
  · intro hN
    simp at hN
    have e1 : ¬ (rest.length + 1 = 1) := by omega
    have e2 : ¬ (rest.length + 1 = 2) := by omega
    have e3 : ¬ (rest.length + 1 = 3) := by omega
    have e4 : ¬ (rest.length + 1 = 4) := by omega
    simp [clickLabel, e1, e2, e3, e4]

/-- Witness for C1 at the spec's concrete scenario: presses on button 1
("on") at 0, 100 and 200 ms yield one `on_triple_press` at 500 ms. -/
theorem multi_press_emits_one_matching_event_witness :
    (∀ m ∈ ([⟨0, 7, [1, 0, 0, 0, 0, 0]⟩, ⟨100, 7, [1, 0, 0, 0, 0, 0]⟩,
        ⟨200, 7, [1, 0, 0, 0, 0, 0]⟩] : List Notif),
      decodeBP m.args = some (Val.label "on", Val.label "press")) ∧
    spacedStrict 0 [⟨100, 7, [1, 0, 0, 0, 0, 0]⟩, ⟨200, 7, [1, 0, 0, 0, 0, 0]⟩] ∧
    ∃ ev : ZhaEvent,
      runToEnd [⟨0, 7, [1, 0, 0, 0, 0, 0]⟩, ⟨100, 7, [1, 0, 0, 0, 0, 0]⟩,
        ⟨200, 7, [1, 0, 0, 0, 0, 0]⟩] = some [(500, ev)] ∧
      ev.press_type = Val.label "triple_press" := by
  refine ⟨by decide, by decide, ?_⟩
  obtain ⟨ev, he, _, h3, _, _⟩ :=
    multi_press_emits_one_matching_event (Val.label "on") ⟨0, 7, [1, 0, 0, 0, 0, 0]⟩
      [⟨100, 7, [1, 0, 0, 0, 0, 0]⟩, ⟨200, 7, [1, 0, 0, 0, 0, 0]⟩]
      (by decide) (by decide) (by decide)
  exact ⟨ev, he, h3 (by decide)⟩

/-- Claim C2: in every reachable state of the debouncer at most one
timer task is pending, and a pending timer is always the latest
replacement — its deadline is `ms_last_click + ms_threshold`, so every
earlier timer has been cancelled or has fired. -/
theorem at_most_one_pending_timer (ns : List Notif) (s : SimState)
    (h : runTrace ns = some s) :
    pendingCount s.q ≤ 1 ∧
      ∀ tm ∈ s.q.timers, tm.pending = true →
        tm.deadline = s.q.ms_last_click + s.q.ms_threshold := by
  have hg := GoodQ_runTrace ns s h
  refine ⟨pendingCount_of_GoodQ s.q hg, ?_⟩
  obtain ⟨hth, hcase⟩ := hg
  intro tm htm hpd
  rcases hcase with ⟨_, htimers⟩ | ⟨dead, lv, htimers, hdead, _, hdl⟩
  · rw [htimers] at htm
    cases htm
  · rw [htimers] at htm
    rcases List.mem_append.mp htm with h1 | h1
    · rw [hdead tm h1] at hpd
      simp at hpd
    · simp at h1
      rw [h1, hth]
      exact hdl (h1 ▸ hpd)

/-- Witness for C2: after one press on button "on" at time 0, the
reachable state has exactly the one freshly scheduled pending timer. -/
theorem at_most_one_pending_timer_witness :
    ∃ s : SimState, runTrace [⟨0, 7, [1, 0, 0, 0, 0, 0]⟩] = some s ∧
      (pendingCount s.q ≤ 1 ∧
        ∀ tm ∈ s.q.timers, tm.pending = true →
          tm.deadline = s.q.ms_last_click + s.q.ms_threshold) :=
  ⟨⟨burstQ (Val.label "on") 1 0 (send_press_event (Val.label "on") 7 [1, 0, 0, 0, 0, 0]) [],
    []⟩, rfl, at_most_one_pending_timer [⟨0, 7, [1, 0, 0, 0, 0, 0]⟩] _ rfl⟩

/-- Claim C3: a single press on button B, isolated in its trace, yields
exactly one event with action `B_press` and press-type label "press",
emitted 300 ms after the press. -/
theorem single_press_single_event (n : Notif) (b : Val)
    (hdec : decodeBP n.args = some (b, Val.label "press")) :
    runToEnd [n] = some [(n.time + 300,
      { action := fmtVal b ++ "_" ++ "press"
        button := b
        press_type := Val.label "press"
        command_id := n.command_id
        args := n.args })] := by
  have h := whole_burst b n []
    (by
      intro m hm
      rw [List.mem_singleton] at hm
      rw [hm]
      exact hdec)
    trivial
  simpa [lastD, clickLabel] using h

/-- Witness for C3: one press on button 4 ("off") at time 0 gives one
`off_press` at 300 ms. -/
theorem single_press_single_event_witness :
    decodeBP [4, 0, 0, 0, 0, 0] = some (Val.label "off", Val.label "press") ∧
    runToEnd [⟨0, 9, [4, 0, 0, 0, 0, 0]⟩] = some [(300,
      { action := "off_press"
        button := Val.label "off"
        press_type := Val.label "press"
        command_id := 9
        args := [4, 0, 0, 0, 0, 0] })] := by
  refine ⟨by decide, ?_⟩
  exact single_press_single_event ⟨0, 9, [4, 0, 0, 0, 0, 0]⟩ (Val.label "off") (by decide)

/-- Claim C4: two presses on the same button spaced more than 300 ms
apart form two independent bursts, each emitting its own press event
300 ms after its press. -/
theorem separated_presses_two_events (n1 n2 : Notif) (b : Val)
    (h1 : decodeBP n1.args = some (b, Val.label "press"))
    (h2 : decodeBP n2.args = some (b, Val.label "press"))
    (hgap : n1.time + 300 < n2.time) :
    runToEnd [n1, n2] = some
      [(n1.time + 300,
        { action := fmtVal b ++ "_" ++ "press"
          button := b
          press_type := Val.label "press"
          command_id := n1.command_id
          args := n1.args }),
       (n2.time + 300,
        { action := fmtVal b ++ "_" ++ "press"
          button := b
          press_type := Val.label "press"
          command_id := n2.command_id
          args := n2.args })] := by
  have hfp := first_press n1 b h1
  have hsep := separated_press b 1 n1.time (send_press_event b n1.command_id n1.args) [] []
    n2 h2 hgap (by simp)
  unfold runToEnd runTrace
  rw [processAll_cons_some initSim n1 _ [n2] hfp]
  rw [processAll_cons_some _ n2 _ [] hsep]
  simp only [processAll, Option.map_some']
  rw [flush_burst b 1 n2.time _ _ _ (by simp)]
  rw [spe_pos b n1.command_id n1.args 1 (by omega),
    spe_pos b n2.command_id n2.args 1 (by omega)]
  simp [clickLabel]

/-- Witness for C4 at the spec's concrete scenario: presses on "off" at
0 ms and 400 ms give `off_press` at 300 ms and at 700 ms. -/
theorem separated_presses_two_events_witness :
    decodeBP [4, 0, 0, 0, 0, 0] = some (Val.label "off", Val.label "press") ∧
    (0 : Nat) + 300 < 400 ∧
    runToEnd [⟨0, 9, [4, 0, 0, 0, 0, 0]⟩, ⟨400, 9, [4, 0, 0, 0, 0, 0]⟩] = some
      [(300, { action := "off_press"
               button := Val.label "off"
               press_type := Val.label "press"
               command_id := 9
               args := [4, 0, 0, 0, 0, 0] }),
       (700, { action := "off_press"
               button := Val.label "off"
               press_type := Val.label "press"
               command_id := 9
               args := [4, 0, 0, 0, 0, 0] })] := by
  refine ⟨by decide, by decide, ?_⟩
  exact separated_presses_two_events ⟨0, 9, [4, 0, 0, 0, 0, 0]⟩ ⟨400, 9, [4, 0, 0, 0, 0, 0]⟩
    (Val.label "off") (by decide) (by decide) (by decide)

/-- Claim C5: a press on a different button while a burst's window is
still open resets the counter to 1 for the new button, cancels the
prior button's pending timer, and the interrupted burst never emits:
the whole run emits exactly the new button's press event. -/
theorem button_switch_resets_and_cancels (b b2 : Val) (n : Notif) (rest : List Notif)
    (m : Notif)
    (hp : ∀ x ∈ n :: rest, decodeBP x.args = some (b, Val.label "press"))
    (hsp : spacedStrict n.time rest)
    (hm : decodeBP m.args = some (b2, Val.label "press"))
    (hne : b2 ≠ b)
    (hmt : m.time ≤ (lastD n rest).time + 300) :
    runToEnd ((n :: rest) ++ [m]) = some [(m.time + 300,
      { action := fmtVal b2 ++ "_" ++ "press"
        button := b2
        press_type := Val.label "press"
        command_id := m.command_id
        args := m.args })] ∧
    ∃ s, runTrace ((n :: rest) ++ [m]) = some s ∧ s.q.click_counter = 1 ∧
      s.q.button = some b2 ∧
      ∀ tm ∈ s.q.timers, tm.pending = true → tm.deadline = m.time + 300 := by
  have hc := spacedStrict_chainFrom n.time rest hsp
  have h1 := first_press n b (hp n (List.mem_cons_self _ _))
  obtain ⟨dead2, hd2, hrun⟩ := burst_run b rest 1 n.time
    (send_press_event b n.command_id n.args) [] []
    (fun x hx => hp x (List.mem_cons_of_mem _ hx)) hc (by simp)
  have hmt2 : m.time ≤ lastTimeFrom n.time rest + 300 := by
    rw [lastTimeFrom_eq_lastD rest n]
    exact hmt
  have hsw := switch_press b b2 (1 + rest.length) (lastTimeFrom n.time rest)
    (lastCb b (send_press_event b n.command_id n.args) rest) dead2 [] m hm hne hmt2 hd2
  have hd3 : ∀ tm ∈ dead2 ++
      [({ deadline := lastTimeFrom n.time rest + 300, pending := false } : TimerRec)],
      tm.pending = false := by
    intro tm htm
    rcases List.mem_append.mp htm with hx | hx
    · exact hd2 tm hx
    · simp at hx
      simp [hx]
  have hAll1 : processAll initSim (n :: rest) = some
      ⟨burstQ b (1 + rest.length) (lastTimeFrom n.time rest)
        (lastCb b (send_press_event b n.command_id n.args) rest) dead2, []⟩ := by
    rw [processAll_cons_some initSim n _ rest h1]
    exact hrun
  have hTr : runTrace ((n :: rest) ++ [m]) = some
      ⟨burstQ b2 1 m.time (send_press_event b2 m.command_id m.args)
        (dead2 ++ [{ deadline := lastTimeFrom n.time rest + 300, pending := false }]),
        []⟩ := by
    unfold runTrace
    rw [processAll_append (n :: rest) [m] initSim _ hAll1]
    rw [processAll_cons_some _ m _ [] hsw]
    simp [processAll]
  constructor
  · unfold runToEnd
    rw [hTr]
    simp only [Option.map_some']
    rw [flush_burst b2 1 m.time _ _ [] hd3]
    rw [spe_pos b2 m.command_id m.args 1 (by omega)]
    simp [clickLabel]
  · refine ⟨_, hTr, by simp [burstQ], by simp [burstQ], ?_⟩
    intro tm htm hpd
    simp only [burstQ] at htm
    rcases List.mem_append.mp htm with hx | hx
    · rw [hd3 tm hx] at hpd
      simp at hpd
    · simp at hx
      rw [hx]

/-- Witness for C5: two presses on "on" at 0 and 100 ms, then a press on
"off" at 150 ms: the only emission is `off_press` at 450 ms, and the
final state debounces "off" with counter 1. -/
theorem button_switch_resets_and_cancels_witness :
    decodeBP [4, 0, 0, 0, 0, 0] = some (Val.label "off", Val.label "press") ∧
    Val.label "off" ≠ Val.label "on" ∧
    runToEnd ([⟨0, 7, [1, 0, 0, 0, 0, 0]⟩, ⟨100, 7, [1, 0, 0, 0, 0, 0]⟩] ++
      [⟨150, 8, [4, 0, 0, 0, 0, 0]⟩]) = some [(450,
        { action := "off_press", button := Val.label "off",
          press_type := Val.label "press", command_id := 8,
          args := [4, 0, 0, 0, 0, 0] })] := by
  refine ⟨by decide, by decide, ?_⟩
  exact (button_switch_resets_and_cancels (Val.label "on") (Val.label "off")
    ⟨0, 7, [1, 0, 0, 0, 0, 0]⟩ [⟨100, 7, [1, 0, 0, 0, 0, 0]⟩] ⟨150, 8, [4, 0, 0, 0, 0, 0]⟩
    (by decide) (by decide) (by decide) (by decide) (by decide)).1

/-- Claim C6: a notification whose decoded press-type is not "press"
emits exactly one event immediately at its own arrival time, with
action `button_presstype` and the original decoded press-type in the
payload; the debouncer state is untouched. -/
theorem non_press_immediate_emission (s : SimState) (n : Notif) (b pt : Val)
    (hdec : decodeBP n.args = some (b, pt))
    (hpt : pt ≠ Val.label "press")
    (hnp : ∀ tm ∈ s.q.timers, tm.pending = false) :
    processNotif s n = some { s with out := s.out ++ [(n.time,
      { action := fmtVal b ++ "_" ++ fmtVal pt
        button := b
        press_type := pt
        command_id := n.command_id
        args := n.args })] } :=
  immediate_emit s n b pt hdec hpt hnp

/-- Witness for C6 at the spec's concrete scenario: button 2 ("up") with
press-type 1 ("hold") emits `up_hold` immediately. -/
theorem non_press_immediate_emission_witness :
    decodeBP [2, 0, 1, 0, 0, 0] = some (Val.label "up", Val.label "hold") ∧
    processNotif initSim ⟨50, 9, [2, 0, 1, 0, 0, 0]⟩ = some { initSim with out :=
      [(50, { action := "up_hold"
              button := Val.label "up"
              press_type := Val.label "hold"
              command_id := 9
              args := [2, 0, 1, 0, 0, 0] })] } := by
  refine ⟨by decide, ?_⟩
  exact non_press_immediate_emission initSim ⟨50, 9, [2, 0, 1, 0, 0, 0]⟩
    (Val.label "up") (Val.label "hold") (by decide) (by decide) (by decide)

/-- Claim C7: a notification whose button code is outside 1..4 or whose
press-type code is outside 0..3 raises no error: the run emits exactly
one event, the unknown code passes through as its raw numeric value
into the payload, and the action string is built from the rendered
values. -/
theorem unknown_codes_pass_through (n : Notif) (a0 a2 : Nat)
    (h0 : n.args.get? 0 = some a0)
    (h2 : n.args.get? 2 = some a2)
    (hun : a0 ∉ [1, 2, 3, 4] ∨ a2 ∉ [0, 1, 2, 3]) :
    ∃ ev t, runToEnd [n] = some [(t, ev)] ∧
      ev.action = fmtVal ev.button ++ "_" ++ fmtVal ev.press_type ∧
      (a0 ∉ [1, 2, 3, 4] → ev.button = Val.code a0) ∧
      (a2 ∉ [0, 1, 2, 3] → ev.press_type = Val.code a2) ∧
      ev.command_id = n.command_id ∧ ev.args = n.args := by
  have hdec : decodeBP n.args = some (decodeVal BUTTONS a0, decodeVal PRESS_TYPES a2) := by
    unfold decodeBP
    rw [h0, h2]
  by_cases ha2 : a2 = 0
  · have ha0 : a0 ∉ [1, 2, 3, 4] := by
      rcases hun with h | h
      · exact h
      · exfalso
        apply h
        simp [ha2]
    subst ha2
    have hbtn := decode_button_unknown a0 ha0
    rw [hbtn] at hdec
    have hdec2 : decodeBP n.args = some (Val.code a0, Val.label "press") := hdec
    have h := whole_burst (Val.code a0) n []
      (by
        intro m hm
        rw [List.mem_singleton] at hm
        rw [hm]
        exact hdec2)
      trivial
    refine ⟨{ action := fmtVal (Val.code a0) ++ "_" ++ clickLabel 1
              button := Val.code a0
              press_type := Val.label (clickLabel 1)
              command_id := n.command_id
              args := n.args }, n.time + 300, ?_, ?_, ?_, ?_, rfl, rfl⟩
    · simpa [lastD] using h
    · simp [fmtVal]
    · intro _
      rfl
    · intro hcontra
      exfalso
      apply hcontra
      simp
  · have hptne := decode_ptype_ne_press a2 ha2
    have h := immediate_runToEnd n (decodeVal BUTTONS a0) (decodeVal PRESS_TYPES a2)
      hdec hptne
    refine ⟨_, n.time, h, by simp, ?_, ?_, by simp, by simp⟩
    · intro ha0
      simp [decode_button_unknown a0 ha0]
    · intro ha2u
      simp [decode_ptype_unknown a2 ha2u]

/-- Witness for C7: button code 9 and press-type code 7 (both unknown)
pass through raw and produce the single immediate event `9_7`. -/
theorem unknown_codes_pass_through_witness :
    (([9, 0, 7, 0, 0, 0] : List Nat).get? 0 = some 9) ∧
    (([9, 0, 7, 0, 0, 0] : List Nat).get? 2 = some 7) ∧
    ((9 : Nat) ∉ [1, 2, 3, 4] ∨ (7 : Nat) ∉ [0, 1, 2, 3]) ∧
    (∃ ev t, runToEnd [⟨0, 5, [9, 0, 7, 0, 0, 0]⟩] = some [(t, ev)] ∧
      ev.action = fmtVal ev.button ++ "_" ++ fmtVal ev.press_type ∧
      ((9 : Nat) ∉ [1, 2, 3, 4] → ev.button = Val.code 9) ∧
      ((7 : Nat) ∉ [0, 1, 2, 3] → ev.press_type = Val.code 7) ∧
      ev.command_id = 5 ∧ ev.args = [9, 0, 7, 0, 0, 0]) := by
  refine ⟨by decide, by decide, by decide, ?_⟩
  exact unknown_codes_pass_through ⟨0, 5, [9, 0, 7, 0, 0, 0]⟩ 9 7
    (by decide) (by decide) (by decide)

/-- Claim C8: the click counter is at least 1 in the initial state and
in every reachable state; `press` resets it to exactly 1 when the
button changes or when the inter-press gap exceeds the threshold, and
otherwise increments it by exactly 1. -/
theorem click_counter_reset_increment :
    initQueue.click_counter = 1 ∧
    (∀ (ns : List Notif) (s : SimState), runTrace ns = some s →
      1 ≤ s.q.click_counter) ∧
    (∀ (q : ButtonPressQueue) (cb : Nat → List ZhaEvent) (b : Val) (t : Nat),
      q.button ≠ some b → (q.press cb b t).click_counter = 1) ∧
    (∀ (q : ButtonPressQueue) (cb : Nat → List ZhaEvent) (b : Val) (t : Nat),
      q.button = some b → q.ms_threshold < t - q.ms_last_click →
        (q.press cb b t).click_counter = 1) ∧
    (∀ (q : ButtonPressQueue) (cb : Nat → List ZhaEvent) (b : Val) (t : Nat),
      q.button = some b → ¬ (q.ms_threshold < t - q.ms_last_click) →
        (q.press cb b t).click_counter = q.click_counter + 1) := by
  refine ⟨rfl, ?_, ?_, ?_, ?_⟩
  · intro ns s h
    exact processAll_inv (fun st => 1 ≤ st.q.click_counter) counter_pos_processNotif
      ns initSim s (by simp [initSim, initQueue]) h
  · intro q cb b t hb
    rw [press_char_ne q cb b t hb]
  · intro q cb b t hb h2
    rw [press_char_far q cb b t hb h2]
  · intro q cb b t hb h2
    rw [press_char_near q cb b t hb h2]

/-- Witness for C8: a press on a button different from the (empty)
active button resets the counter to 1. -/
theorem click_counter_reset_increment_witness :
    initQueue.button ≠ some (Val.label "on") ∧
    (initQueue.press (fun _ => []) (Val.label "on") 0).click_counter = 1 :=
  ⟨by decide, click_counter_reset_increment.2.2.1 initQueue (fun _ => [])
    (Val.label "on") 0 (by decide)⟩

/-- Claim C9: a multi-press burst's single event takes its button,
command id and raw argument list from the last notification of the
burst, and only the press-type field is overwritten with the
count-derived label. -/
theorem burst_payload_from_last_notification (b : Val) (n : Notif) (rest : List Notif)
    (hp : ∀ m ∈ n :: rest, decodeBP m.args = some (b, Val.label "press"))
    (hsp : spacedStrict n.time rest)
    (_hlen : 2 ≤ (n :: rest).length) :
    runToEnd (n :: rest) = some [((lastD n rest).time + 300,
      { action := fmtVal b ++ "_" ++ clickLabel (rest.length + 1)
        button := b
        press_type := Val.label (clickLabel (rest.length + 1))
        command_id := (lastD n rest).command_id
        args := (lastD n rest).args })] :=
  whole_burst b n rest hp (spacedStrict_chainFrom n.time rest hsp)

/-- Witness for C9: two presses on "on" whose notifications carry
different command ids and argument lists; the double-press event
carries the second notification's command id 6 and args. -/
theorem burst_payload_from_last_notification_witness :
    (∀ m ∈ ([⟨0, 5, [1, 0, 0, 0, 0, 0]⟩, ⟨100, 6, [1, 9, 0, 8, 8, 8]⟩] : List Notif),
      decodeBP m.args = some (Val.label "on", Val.label "press")) ∧
    runToEnd [⟨0, 5, [1, 0, 0, 0, 0, 0]⟩, ⟨100, 6, [1, 9, 0, 8, 8, 8]⟩] = some
      [(400, { action := "on_double_press"
               button := Val.label "on"
               press_type := Val.label "double_press"
               command_id := 6
               args := [1, 9, 0, 8, 8, 8] })] := by
  refine ⟨by decide, ?_⟩
  exact burst_payload_from_last_notification (Val.label "on") ⟨0, 5, [1, 0, 0, 0, 0, 0]⟩
    [⟨100, 6, [1, 9, 0, 8, 8, 8]⟩] (by decide) (by decide) (by decide)

/-- Claim C10: decoding reads only indices 0 and 2 of the argument list;
for every argument list with at least 3 elements decoding succeeds,
dispatch is total, and the out-of-bounds error branch is unreachable. -/
theorem decode_reads_only_indices_0_and_2 :
    (∀ args : List Nat, 3 ≤ args.length → ∃ v, decodeBP args = some v) ∧
    (∀ args1 args2 : List Nat, args1.get? 0 = args2.get? 0 →
      args1.get? 2 = args2.get? 2 → decodeBP args1 = decodeBP args2) ∧
    (∀ (s : SimState) (n : Notif), 3 ≤ n.args.length →
      (processNotif s n).isSome = true) := by
  refine ⟨?_, ?_, ?_⟩
  · intro args h
    obtain ⟨a0, a2, hg0, hg2, hbp⟩ := decodeBP_of_len args h
    exact ⟨_, hbp⟩
  · intro args1 args2 h0 h2
    unfold decodeBP
    rw [h0, h2]
  · intro s n h
    obtain ⟨a0, a2, hg0, hg2, hbp⟩ := decodeBP_of_len n.args h
    by_cases hpt : decodeVal PRESS_TYPES a2 = Val.label "press" <;>
      simp [processNotif, handle_cluster_request, hbp, hpt]

/-- Witness for C10: the 3-element list [1, 5, 0] decodes successfully
and dispatches without error from the initial state. -/
theorem decode_reads_only_indices_0_and_2_witness :
    3 ≤ ([1, 5, 0] : List Nat).length ∧
    (∃ v, decodeBP [1, 5, 0] = some v) ∧
    (processNotif initSim ⟨0, 4, [1, 5, 0]⟩).isSome = true := by
  refine ⟨by decide, ?_, ?_⟩
  · exact decode_reads_only_indices_0_and_2.1 [1, 5, 0] (by decide)
  · exact decode_reads_only_indices_0_and_2.2.2 initSim ⟨0, 4, [1, 5, 0]⟩ (by decide)

end PhilipsQuirk
